import Mathlib

/-!
A verification development for the bulk content-upload pipeline
(Azure-functions based GitHub uploader).  The definitions below are shallow
embeddings of the JavaScript source: strings are Lean `String`s operated on
through their character lists (JS string primitives such as `trim`,
`toLowerCase`, `includes`, `endsWith` are modelled explicitly), file-system
trees are an inductive type whose nodes carry the success/failure of the
`fs` calls the code performs on them, and the network is modelled by oracle
records describing each remote response, with the sequence of issued
requests returned as an explicit trace.
-/

namespace CodePup

/-! ## JS string primitives -/

/-- Whitespace characters trimmed by JavaScript `String.prototype.trim`
(ASCII part plus NBSP; tab, LF, VT, FF, CR, space). -/
def isJsWhitespace (c : Char) : Bool :=
  c = ' ' || c = '\t' || c = '\n' || c = '\r' ||
  c = Char.ofNat 11 || c = Char.ofNat 12 || c = Char.ofNat 160

/-- JavaScript `s.trim()`. -/
def jsTrim (s : String) : String :=
  String.mk (((s.data.dropWhile isJsWhitespace).reverse.dropWhile isJsWhitespace).reverse)

/-- ASCII lowering of one character, as JS `toLowerCase` acts on ASCII. -/
def lowerChar (c : Char) : Char :=
  if 'A' ≤ c && c ≤ 'Z' then Char.ofNat (c.toNat + 32) else c

/-- JavaScript `s.toLowerCase()` (ASCII fragment). -/
def lowerStr (s : String) : String :=
  String.mk (s.data.map lowerChar)

/-- JavaScript `s.includes(pat)`: case-sensitive substring test. -/
def strIncludes (s pat : String) : Bool :=
  s.data.tails.any (fun t => pat.data.isPrefixOf t)

/-- JavaScript `s.endsWith(pat)`. -/
def strEndsWith (s pat : String) : Bool :=
  pat.data.isSuffixOf s.data

/-- JavaScript `s.startsWith(pat)`. -/
def strStartsWith (s pat : String) : Bool :=
  pat.data.isPrefixOf s.data

/-! ## Repository-name validation (Job Runner / `validateRepositoryName`) -/

/-- Characters allowed by the regex `^[a-zA-Z0-9._-]+$`. -/
def isRepoChar (c : Char) : Bool :=
  ('a' ≤ c && c ≤ 'z') || ('A' ≤ c && c ≤ 'Z') || ('0' ≤ c && c ≤ '9') ||
  c = '.' || c = '_' || c = '-'

/-- The regex test `/^[a-zA-Z0-9._-]+$/.test t`. -/
def repoCharsetOk (t : String) : Bool :=
  !t.data.isEmpty && t.data.all isRepoChar

/-- The regex test `/^[.-]|[.-]$/.test t`. -/
def startsOrEndsDotDash (t : String) : Bool :=
  (match t.data.head? with
   | some c => c = '.' || c = '-'
   | none => false) ||
  (match t.data.getLast? with
   | some c => c = '.' || c = '-'
   | none => false)

/-- The characters of the class `[<>"'\x60]` in the dangerous-pattern regex. -/
def forbiddenSpecChars : List Char :=
  ['<', '>', Char.ofNat 34, Char.ofNat 39, Char.ofNat 96]

/-- The regex test for the dangerous patterns
`[<>"'\x60] | javascript: | data: | ..`. -/
def hasDangerousPattern (t : String) : Bool :=
  t.data.any (fun c => forbiddenSpecChars.contains c) ||
  strIncludes t "javascript:" || strIncludes t "data:" || strIncludes t ".."

/-- The reserved-name list of `validateRepositoryName`. -/
def reservedNames : List String :=
  ["api", "www", "admin", "root", "git", "github", "help"]

/-- Shallow embedding of `validateRepositoryName` (TreeReciever/index.js,
lines 528-564): the Job Runner repository-name validator.  A thrown
`Error` is modelled as `Except.error` carrying the message. -/
def validateRepositoryName (s : String) : Except String String :=
  if s = "" then .error "Repository name is required"
  else
    let trimmed := jsTrim s
    if trimmed.length = 0 || trimmed.length > 100 then
      .error "Repository name must be 1-100 characters"
    else if !repoCharsetOk trimmed then
      .error "Repository name can only contain letters, numbers, dots, hyphens, and underscores"
    else if startsOrEndsDotDash trimmed then
      .error "Repository name cannot start or end with dots or hyphens"
    else if hasDangerousPattern trimmed then
      .error "Repository name contains invalid characters"
    else if reservedNames.contains (lowerStr trimmed) then
      .error "Repository name is reserved"
    else .ok trimmed

/-- Modelled from the claim text of C1 (spec §8): a name is accepted iff it
is 1-100 characters long, matches `[A-Za-z0-9._-]+`, does not start or end
with a dot or hyphen, contains none of the characters `< > " ' \x60` nor the
substring `..`, and is not in the reserved-name list (membership taken on
the lowercased name, as the code's reserved check is case-insensitive). -/
def specAcceptsName (s : String) : Bool :=
  decide (1 ≤ s.length) && decide (s.length ≤ 100) &&
  s.data.all isRepoChar &&
  !startsOrEndsDotDash s &&
  s.data.all (fun c => !forbiddenSpecChars.contains c) &&
  !strIncludes s ".." &&
  !reservedNames.contains (lowerStr s)

/-! ### Facts about the validator -/

theorem strIncludes_infix {s p : String} (h : strIncludes s p = true) :
    p.data <:+: s.data := by
  unfold strIncludes at h
  rw [List.any_eq_true] at h
  obtain ⟨t, ht, hp⟩ := h
  rw [List.mem_tails] at ht
  rw [List.isPrefixOf_iff_prefix] at hp
  exact List.infix_iff_prefix_suffix.mpr ⟨t, hp, ht⟩

/-- A name matching the allowed charset cannot contain a substring that has
a colon in it (colons are outside the charset). -/
theorem charset_no_colon_sub {t : String} (hall : t.data.all isRepoChar = true)
    (p : String) (hc : ':' ∈ p.data) : strIncludes t p = false := by
  rw [Bool.eq_false_iff]
  intro h
  have hinf := strIncludes_infix h
  have hmem : ':' ∈ t.data := hinf.subset hc
  rw [List.all_eq_true] at hall
  have h1 := hall _ hmem
  exact absurd h1 (by decide)

/-- A name matching the allowed charset contains none of the dangerous
characters. -/
theorem charset_no_forbidden {t : String} (hall : t.data.all isRepoChar = true) :
    t.data.any (fun c => forbiddenSpecChars.contains c) = false := by
  rw [Bool.eq_false_iff]
  intro h
  rw [List.any_eq_true] at h
  obtain ⟨c, hcmem, hcf⟩ := h
  rw [List.all_eq_true] at hall
  have h1 := hall _ hcmem
  have h2 : c ∈ forbiddenSpecChars := by simpa using hcf
  have h3 : ∀ c ∈ forbiddenSpecChars, isRepoChar c = false := by decide
  rw [h3 c h2] at h1
  exact absurd h1 (by decide)

theorem hasDangerousPattern_of_charset {t : String}
    (hall : t.data.all isRepoChar = true) :
    hasDangerousPattern t = strIncludes t ".." := by
  unfold hasDangerousPattern
  rw [charset_no_forbidden hall,
    charset_no_colon_sub hall "javascript:" (by decide),
    charset_no_colon_sub hall "data:" (by decide)]
  simp

/-- The validator accepts a raw name exactly when its trimmed form satisfies
all the checks of the claimed characterization. -/
theorem validateRepositoryName_isOk_iff (s : String) :
    (validateRepositoryName s).isOk = true ↔ specAcceptsName (jsTrim s) = true := by
  unfold validateRepositoryName
  by_cases h0 : s = ""
  · subst h0
    simp [jsTrim, specAcceptsName, Except.isOk, Except.toBool]
  · simp only [h0, if_false]
    constructor
    · intro h
      by_cases h1 : ((jsTrim s).length = 0 || (jsTrim s).length > 100) = true
      · rw [if_pos h1] at h; simp [Except.isOk, Except.toBool] at h
      · rw [if_neg h1] at h
        by_cases h2 : repoCharsetOk (jsTrim s) = true
        swap
        · rw [if_pos (by simp [h2])] at h; simp [Except.isOk, Except.toBool] at h
        rw [if_neg (by simp [h2])] at h
        by_cases h3 : startsOrEndsDotDash (jsTrim s) = true
        · rw [if_pos h3] at h; simp [Except.isOk, Except.toBool] at h
        rw [if_neg h3] at h
        by_cases h4 : hasDangerousPattern (jsTrim s) = true
        · rw [if_pos h4] at h; simp [Except.isOk, Except.toBool] at h
        rw [if_neg h4] at h
        by_cases h5 : reservedNames.contains (lowerStr (jsTrim s)) = true
        · rw [if_pos h5] at h; simp [Except.isOk, Except.toBool] at h
        unfold repoCharsetOk at h2
        rw [Bool.and_eq_true] at h2
        obtain ⟨h2a, h2b⟩ := h2
        have hdd : strIncludes (jsTrim s) ".." = false := by
          rw [hasDangerousPattern_of_charset h2b] at h4
          simpa using h4
        simp only [Bool.or_eq_true, decide_eq_true_eq, not_or] at h1
        obtain ⟨hz, hgt⟩ := h1
        have hlen : 1 ≤ (jsTrim s).length := by omega
        have hlen2 : (jsTrim s).length ≤ 100 := by omega
        have h3' : startsOrEndsDotDash (jsTrim s) = false := by simpa using h3
        have h5' : reservedNames.contains (lowerStr (jsTrim s)) = false := by
          simp only [Bool.not_eq_true] at h5
          exact h5
        simp only [specAcceptsName, h2b, h3', hdd, h5', Bool.not_false,
          Bool.and_true, Bool.true_and]
        rw [Bool.and_eq_true, Bool.and_eq_true]
        refine ⟨⟨by simp only [decide_eq_true_eq]; exact hlen,
          by simp only [decide_eq_true_eq]; exact hlen2⟩, ?_⟩
        rw [List.all_eq_true]
        intro x hx
        have hrc := List.all_eq_true.mp h2b x hx
        have h3f : ∀ c ∈ forbiddenSpecChars, isRepoChar c = false := by decide
        rw [Bool.not_eq_true']
        rw [Bool.eq_false_iff]
        intro hcont
        have hmem : x ∈ forbiddenSpecChars := by simpa using hcont
        rw [h3f x hmem] at hrc
        exact absurd hrc (by decide)
    · intro h
      unfold specAcceptsName at h
      simp only [Bool.and_eq_true, decide_eq_true_eq, Bool.not_eq_true'] at h
      obtain ⟨⟨⟨⟨⟨⟨hl1, hl2⟩, hall⟩, hse⟩, hforb⟩, hdd⟩, hres⟩ := h
      have h1 : ¬((jsTrim s).length = 0 || (jsTrim s).length > 100) = true := by
        simp only [Bool.or_eq_true, decide_eq_true_eq]
        push_neg
        omega
      rw [if_neg h1]
      have hl1' : 1 ≤ (jsTrim s).data.length := hl1
      have h2 : repoCharsetOk (jsTrim s) = true := by
        unfold repoCharsetOk
        rw [Bool.and_eq_true, hall]
        refine ⟨?_, rfl⟩
        cases hd : (jsTrim s).data with
        | nil => rw [hd] at hl1'; simp at hl1'
        | cons a l => simp [List.isEmpty]
      rw [if_neg (by rw [Bool.not_eq_true]; simp only [h2]; simp),
        if_neg (by rw [hse]; simp),
        if_neg (by rw [hasDangerousPattern_of_charset hall, hdd]; simp),
        if_neg (by rw [hres]; simp)]
      rfl

/-! ## Job Runner prelude (Service Bus queue processor, up to the decision
to proceed with provisioning/upload) -/

/-- Outcome of `testGitHubToken`: either the identity endpoint resolved a
user object (whose `rateLimit` field is `true` exactly when the probe was
rate-limited and the sentinel `{login: "rate-limited-user", rateLimit: true}`
was returned), or the probe threw. -/
inductive ProbeOutcome where
  | resolved (login : String) (rateLimit : Bool)
  | failed (msg : String)
  deriving Repr, DecidableEq

/-- Network calls the Job Runner prelude can issue. -/
inductive NetAction where
  | probeIdentity
  deriving Repr, DecidableEq

/-- Shallow embedding of the Service Bus queue processor (TreeReciever/
index.js, lines 1072-1145) up to and including the credential/owner
mismatch check: missing-field check, `validateRepositoryName`, the
`testGitHubToken` network probe (modelled by the `probe` oracle), and the
owner comparison.  `Except.ok v` means the run proceeds (with validated
name `v`) to provisioning and upload; the second component is the list of
network calls issued so far. -/
def runJobPrelude (username zipUrl repoName authToken : String)
    (probe : ProbeOutcome) : Except String String × List NetAction :=
  if username = "" || zipUrl = "" || repoName = "" || authToken = "" then
    (.error "Missing required fields", [])
  else
    match validateRepositoryName repoName with
    | .error e => (.error e, [])
    | .ok validated =>
      match probe with
      | .failed m => (.error m, [.probeIdentity])
      | .resolved login rateLimit =>
        if !rateLimit && login ≠ "rate-limited-user" then
          if lowerStr login ≠ lowerStr username then
            (.error ("Token belongs to user " ++ login ++ " but expected "
              ++ username ++ ". Please check your configuration."),
              [.probeIdentity])
          else (.ok validated, [.probeIdentity])
        else (.ok validated, [.probeIdentity])

/-! ## C1: repository-name validation -/

/-- C1, counterexample to the claim as stated: the validator trims its
input first, so the raw name " a" (leading space) is accepted even though
it does not match `[A-Za-z0-9._-]+` and hence fails the claimed
characterization. -/
theorem c1_validator_claim_counterexample :
    (validateRepositoryName " a").isOk = true ∧ specAcceptsName " a" = false := by
  constructor <;> decide

/-- C1 (amended): for every repository name, the validator first trims
leading/trailing whitespace and then accepts iff the trimmed name is 1-100
characters, matches `[A-Za-z0-9._-]+`, does not start or end with a dot or
hyphen, contains none of `< > " ' \x60` nor the substring `..`, and is not in
the reserved-name list; and whenever validation rejects, the Job Runner
fails with that validation error having made no network call. -/
theorem c1_validator_amended :
    (∀ s : String,
      (validateRepositoryName s).isOk = true ↔ specAcceptsName (jsTrim s) = true) ∧
    (∀ username zipUrl repoName authToken e probe,
      validateRepositoryName repoName = .error e →
      (runJobPrelude username zipUrl repoName authToken probe).1.isOk = false ∧
      (runJobPrelude username zipUrl repoName authToken probe).2 = []) := by
  refine ⟨validateRepositoryName_isOk_iff, ?_⟩
  intro username zipUrl repoName authToken e probe hv
  unfold runJobPrelude
  by_cases hm : (username = "" || zipUrl = "" || repoName = "" || authToken = "") = true
  · rw [if_pos hm]
    exact ⟨rfl, rfl⟩
  · rw [if_neg hm, hv]
    exact ⟨rfl, rfl⟩

/-- C1 witness: the scenario job with `repoName = "../evil"` is rejected
with a validation error before any network call. -/
theorem c1_validator_amended_witness :
    (runJobPrelude "alice" "https://x.example/a.zip" "../evil" "ghp_token"
        (.resolved "alice" false)).1.isOk = false ∧
    (runJobPrelude "alice" "https://x.example/a.zip" "../evil" "ghp_token"
        (.resolved "alice" false)).2 = [] :=
  c1_validator_amended.2 "alice" "https://x.example/a.zip" "../evil" "ghp_token"
    "Repository name can only contain letters, numbers, dots, hyphens, and underscores"
    (.resolved "alice" false) rfl

/-! ## C10: credential/owner mismatch check -/

/-- C10, counterexample to the claim as stated: a probe that resolves
(`rateLimit = false`) with the literal login "rate-limited-user" skips the
owner comparison entirely, so the run proceeds although the login and the
claimed owner "alice" differ beyond letter case. -/
theorem c10_owner_check_counterexample :
    runJobPrelude "alice" "https://x.example/a.zip" "myrepo" "ghp_token"
      (.resolved "rate-limited-user" false) =
      (.ok "myrepo", [.probeIdentity]) ∧
    lowerStr "rate-limited-user" ≠ lowerStr "alice" := by
  refine ⟨rfl, by decide⟩

/-- C10 (amended): when the identity probe resolves without a rate-limit
flag, the run proceeds iff the resolved login equals the claimed username
up to letter case, or the login is the literal sentinel string
"rate-limited-user" (which the runner cannot distinguish from the
rate-limited fallback and therefore also lets proceed).  In particular a
credential whose login differs from the claimed owner only in
capitalization is accepted. -/
theorem c10_owner_check_amended (username zipUrl repoName authToken v login : String)
    (hu : username ≠ "") (hz : zipUrl ≠ "") (ha : authToken ≠ "")
    (hv : validateRepositoryName repoName = .ok v) :
    (runJobPrelude username zipUrl repoName authToken
        (.resolved login false)).1.isOk = true ↔
      (lowerStr login = lowerStr username ∨ login = "rate-limited-user") := by
  have hr : repoName ≠ "" := by
    intro h
    rw [h] at hv
    simp [validateRepositoryName] at hv
  unfold runJobPrelude
  rw [if_neg (by simp [hu, hz, hr, ha]), hv]
  by_cases hlog : login = "rate-limited-user"
  · subst hlog
    simp [Except.isOk, Except.toBool]
  · by_cases heq : lowerStr login = lowerStr username
    · simp [hlog, heq, Except.isOk, Except.toBool]
    · simp [hlog, heq, Except.isOk, Except.toBool]

/-- C10 witness: a login differing from the claimed owner only in
capitalization is accepted. -/
theorem c10_owner_check_amended_witness :
    (runJobPrelude "Alice" "https://x.example/a.zip" "myrepo" "ghp_token"
        (.resolved "ALICE" false)).1.isOk = true :=
  (c10_owner_check_amended "Alice" "https://x.example/a.zip" "myrepo" "ghp_token"
    "myrepo" "ALICE" (by decide) (by decide) (by decide) rfl).mpr
    (Or.inl (by decide))

/-! ## File-system model

A directory tree as the walkers observe it.  Each node records whether the
`fs.statSync` call on it succeeds; a file node records whether reads of it
succeed (`readOk`), its raw bytes, and the length of its UTF-8 decode as a
JS string (`content.length`, i.e. UTF-16 code units); a directory node
records whether `fs.readdirSync` on it succeeds (`listOk`). -/

structure FileData where
  readOk : Bool
  bytes : List Nat
  utf16Len : Nat
  deriving Repr, DecidableEq

mutual
inductive FSTree where
  | file (statOk : Bool) (data : FileData)
  | dir (statOk : Bool) (listOk : Bool) (entries : FSEntries)
/-- The named entries of a directory, in `fs.readdirSync` order. -/
inductive FSEntries where
  | nil
  | cons (name : String) (t : FSTree) (rest : FSEntries)
end

/-- A classified output entry: the relative path (as its `/`-separated
segments) together with the file it came from. -/
structure COut where
  path : List String
  data : FileData
  deriving Repr, DecidableEq

/-- The `path.join`/`path.relative` result for a chain of entry names,
normalized to forward slashes. -/
def joinSegs : List String → String
  | [] => ""
  | [s] => s
  | s :: rest => s ++ "/" ++ joinSegs rest

/-! ## File Classifier (fourth document in TreeReciever/index.js) -/

/-- The directory skip-list of `shouldSkipDirectory`. -/
def skipDirs : List String :=
  [".git", "node_modules", ".next", "dist", "build", ".svn", ".hg",
   "__pycache__", ".pytest_cache", ".coverage", ".nyc_output", "coverage",
   "tmp", "temp", ".vscode", ".idea"]

/-- Embedding of `shouldSkipDirectory(dirName)`. -/
def shouldSkipDirectory (dirName : String) : Bool :=
  skipDirs.contains dirName

/-- The filename skip-list of `shouldSkipFile`. -/
def skipFiles : List String :=
  [".DS_Store", "Thumbs.db", "desktop.ini", "*.log", "*.tmp", "*.temp",
   ".env", ".env.local", ".env.production", ".env.development"]

/-- Embedding of `shouldSkipFile(fileName)`: the literal skip-list, plus `.log` files
whose name does not contain "changelog". -/
def shouldSkipFile (fileName : String) : Bool :=
  if skipFiles.contains fileName then true
  else if strEndsWith fileName ".log" && !strIncludes fileName "changelog" then true
  else false

/-- Node's `path.extname` on a bare file name: the suffix starting at the
last dot, where a dot in position 0 does not count as an extension
separator. -/
def extnameAux : List Char → Option (List Char)
  | [] => none
  | c :: rest =>
    match extnameAux rest with
    | some suf => some suf
    | none => if c = '.' then some (c :: rest) else none

def extname (s : String) : String :=
  match s.data with
  | [] => ""
  | _ :: rest =>
    match extnameAux rest with
    | some suf => String.mk suf
    | none => ""

/-- The text-extension allowlist of `isTextFile` (verbatim, including the
compound entries that `path.extname` can never produce). -/
def textExtensions : List String :=
  [".js", ".jsx", ".ts", ".tsx", ".vue", ".svelte", ".astro",
   ".html", ".htm", ".xml", ".svg",
   ".css", ".scss", ".sass", ".less", ".stylus",
   ".json", ".jsonc", ".json5",
   ".mjs", ".cjs", ".esm",
   ".config.js", ".config.ts", ".config.mjs", ".config.cjs",
   ".md", ".mdx", ".txt", ".rst",
   ".py", ".java", ".cpp", ".c", ".h", ".cs", ".php", ".rb", ".go", ".rs",
   ".swift", ".kt", ".scala", ".dart", ".lua",
   ".sh", ".bash", ".zsh", ".fish", ".ps1", ".cmd", ".bat",
   ".yml", ".yaml", ".toml", ".ini", ".cfg", ".conf", ".properties",
   ".csv", ".tsv", ".sql",
   ".env.example", ".env.template", ".env.sample",
   ".gitignore", ".gitattributes", ".editorconfig", ".prettierrc",
   ".eslintrc", ".babelrc", ".browserslistrc", ".npmrc", ".nvmrc",
   ".map"]

/-- The extensionless text-file name list of `isTextFile` (matched by
case-insensitive substring). -/
def textFileNames : List String :=
  ["readme", "license", "changelog", "contributing", "authors", "copying",
   "install", "news", "todo", "makefile", "dockerfile", "procfile",
   "rakefile", "gemfile", "guardfile", "gruntfile", "gulpfile"]

/-- Embedding of `isTextFile(fileName)`. -/
def isTextFile (fileName : String) : Bool :=
  let ext := lowerStr (extname fileName)
  let fullName := lowerStr fileName
  if ext = "" then
    textFileNames.any (fun n => strIncludes fullName n)
  else if textExtensions.contains ext then true
  else if strIncludes fullName "config" &&
      (ext = ".js" || ext = ".ts" || ext = ".mjs" || ext = ".cjs") then true
  else if strStartsWith fileName "." &&
      (strIncludes fullName "rc" || strIncludes fullName "config" ||
       strIncludes fullName "ignore" || strIncludes fullName "lint") then true
  else false

/-- Embedding of `isBinaryFile(filePath)`: a read failure counts as binary; otherwise
binary iff a null byte occurs among the first 1024 bytes. -/
def isBinaryFile (d : FileData) : Bool :=
  if d.readOk = false then true
  else (d.bytes.take 1024).contains 0

/-- The per-file part of the classifier walk `getRecursiveCalls`: the
sequence of checks applied to a (non-directory) entry named `name` at
relative position `rel`, in source order.  Produces the pushed entry, or
nothing if any check skips the file. -/
def classifyFile (name : String) (statOk : Bool) (d : FileData)
    (rel : List String) : List COut :=
  if statOk = false then []
  else if shouldSkipFile name then []
  else if !isTextFile name then []
  else if isBinaryFile d then []
  else
    let segs := rel ++ [name]
    let rp := joinSegs segs
    if rp = "" || strIncludes rp ".." || strStartsWith rp "/" then []
    else if d.readOk = false then []
    else if d.utf16Len > 1024 * 1024 then []
    else [⟨segs, d⟩]

/-- Shallow embedding of the classifier walk `getRecursiveCalls(dir, root)`
(fourth document in TreeReciever/index.js, lines 1389-1477), operating on
the listed entries of a directory at relative position `rel` below the walk
root. -/
def getRecursiveCalls : FSEntries → List String → List COut
  | .nil, _ => []
  | .cons name (FSTree.file statOk d) rest, rel =>
    classifyFile name statOk d rel ++ getRecursiveCalls rest rel
  | .cons name (FSTree.dir statOk listOk sub) rest, rel =>
    (if statOk = false then []
     else if shouldSkipDirectory name then []
     else if listOk = false then []
     else getRecursiveCalls sub (rel ++ [name])) ++ getRecursiveCalls rest rel

/-! ## Upload Orchestrator file collection (`collectFiles`) -/

/-- Shallow embedding of `collectFiles` inside `uploadToGitHubAPI`
(TreeReciever/index.js, lines 810-826): collects EVERY regular file
reachable from the working directory, with no skip/text/binary/size
checks.  `fs.readdirSync`/`fs.statSync` have no error handling there, so a
failing call aborts the walk (modelled as `none`). -/
def collectFiles : FSEntries → List String → Option (List (List String))
  | .nil, _ => some []
  | .cons name (FSTree.file statOk _d) rest, rel =>
    if statOk = false then none
    else
      match collectFiles rest rel with
      | none => none
      | some r => some ((rel ++ [name]) :: r)
  | .cons name (FSTree.dir statOk listOk sub) rest, rel =>
    if statOk = false then none
    else if listOk = false then none
    else
      match collectFiles sub (rel ++ [name]) with
      | none => none
      | some sres =>
        match collectFiles rest rel with
        | none => none
        | some r => some (sres ++ r)

/-- Modelled from the spec invariant wording of C2: the list of ALL regular
files under the tree, in traversal order, with no eligibility filtering —
what a gate-free collector publishes. -/
def allFilePaths : FSEntries → List String → List (List String)
  | .nil, _ => []
  | .cons name (FSTree.file _ _) rest, rel =>
    (rel ++ [name]) :: allFilePaths rest rel
  | .cons name (FSTree.dir _ _ sub) rest, rel =>
    allFilePaths sub (rel ++ [name]) ++ allFilePaths rest rel

/-! ### Classifier soundness -/

theorem mem_classifyFile {name : String} {statOk : Bool} {d : FileData}
    {rel : List String} {o : COut} (h : o ∈ classifyFile name statOk d rel) :
    o.path = rel ++ [name] ∧ o.data = d ∧
    shouldSkipFile name = false ∧ isTextFile name = true ∧
    isBinaryFile d = false ∧ d.utf16Len ≤ 1024 * 1024 := by
  unfold classifyFile at h
  by_cases h1 : statOk = false
  · rw [if_pos h1] at h; simp at h
  rw [if_neg h1] at h
  by_cases h2 : shouldSkipFile name = true
  · rw [if_pos h2] at h; simp at h
  rw [if_neg h2] at h
  by_cases h3 : isTextFile name = true
  swap
  · rw [if_pos (by simp [h3])] at h; simp at h
  rw [if_neg (by simp [h3])] at h
  by_cases h4 : isBinaryFile d = true
  · rw [if_pos h4] at h; simp at h
  rw [if_neg h4] at h
  by_cases h5 : (joinSegs (rel ++ [name]) = "" ||
      strIncludes (joinSegs (rel ++ [name])) ".." ||
      strStartsWith (joinSegs (rel ++ [name])) "/") = true
  · rw [if_pos h5] at h; simp at h
  rw [if_neg h5] at h
  by_cases h6 : d.readOk = false
  · rw [if_pos h6] at h; simp at h
  rw [if_neg h6] at h
  by_cases h7 : d.utf16Len > 1024 * 1024
  · rw [if_pos (by simpa using h7)] at h; simp at h
  rw [if_neg (by simpa using h7)] at h
  rw [List.mem_singleton] at h
  subst h
  refine ⟨rfl, rfl, ?_, h3, ?_, by omega⟩
  · simpa using h2
  · simpa using h4

theorem getRecursiveCalls_sound :
    ∀ (entries : FSEntries) (rel : List String),
      (∀ s ∈ rel, shouldSkipDirectory s = false) →
      ∀ o ∈ getRecursiveCalls entries rel,
        (∀ s ∈ o.path.dropLast, shouldSkipDirectory s = false) ∧
        isBinaryFile o.data = false ∧
        o.data.utf16Len ≤ 1024 * 1024 ∧
        (∀ n, o.path.getLast? = some n →
          shouldSkipFile n = false ∧ isTextFile n = true) := by
  intro entries rel
  induction entries, rel using getRecursiveCalls.induct with
  | case1 rel =>
    intro _ o ho
    simp [getRecursiveCalls] at ho
  | case2 name statOk d rest rel ih =>
    intro hrel o ho
    simp only [getRecursiveCalls] at ho
    rcases List.mem_append.mp ho with hc | hr
    · obtain ⟨hpath, hdata, _hskip, _htext, hbin, hsize⟩ := mem_classifyFile hc
      refine ⟨?_, ?_, ?_, ?_⟩
      · rw [hpath, List.dropLast_concat]
        exact hrel
      · rw [hdata]; exact hbin
      · rw [hdata]; exact hsize
      · intro n hn
        rw [hpath, List.getLast?_concat] at hn
        obtain rfl : name = n := by simpa using hn
        obtain ⟨_, _, hskip, htext, _, _⟩ := mem_classifyFile hc
        exact ⟨hskip, htext⟩
    · exact ih hrel o hr
  | case3 name statOk listOk sub rest rel ih1 ih2 =>
    intro hrel o ho
    simp only [getRecursiveCalls] at ho
    rcases List.mem_append.mp ho with hc | hr
    · by_cases h1 : statOk = false
      · rw [if_pos h1] at hc; simp at hc
      rw [if_neg h1] at hc
      by_cases h2 : shouldSkipDirectory name = true
      · rw [if_pos h2] at hc; simp at hc
      rw [if_neg h2] at hc
      by_cases h3 : listOk = false
      · rw [if_pos h3] at hc; simp at hc
      rw [if_neg h3] at hc
      refine ih1 ?_ o hc
      intro s hs
      rcases List.mem_append.mp hs with hs1 | hs2
      · exact hrel s hs1
      · obtain rfl : s = name := by simpa using hs2
        simpa using h2
    · exact ih2 hrel o hr

/-! ## C3: classifier output invariants -/

/-- C3: for every file tree, the Classifier's output never contains a path
under a skip-listed directory name (no ancestor segment of an output path
is skip-listed), never contains a file whose binary sniff fired (null byte
in the first 1024 bytes, or unreadable — read failure counts as binary),
and never contains a file whose decoded size exceeds 1 MiB. -/
theorem c3_classifier_invariants (entries : FSEntries) (o : COut)
    (ho : o ∈ getRecursiveCalls entries []) :
    (∀ s ∈ o.path.dropLast, shouldSkipDirectory s = false) ∧
    isBinaryFile o.data = false ∧
    o.data.utf16Len ≤ 1024 * 1024 := by
  obtain ⟨h1, h2, h3, _⟩ :=
    getRecursiveCalls_sound entries [] (by intro s hs; simp at hs) o ho
  exact ⟨h1, h2, h3⟩

/-- C3 witness: a concrete tree with one eligible file; its output entry
satisfies all three invariants. -/
theorem c3_classifier_invariants_witness :
    (∀ s ∈ (COut.mk ["src", "main.js"] ⟨true, [104, 105], 2⟩).path.dropLast,
      shouldSkipDirectory s = false) ∧
    isBinaryFile (COut.mk ["src", "main.js"] ⟨true, [104, 105], 2⟩).data = false ∧
    (COut.mk ["src", "main.js"] ⟨true, [104, 105], 2⟩).data.utf16Len ≤ 1024 * 1024 :=
  c3_classifier_invariants
    (.cons "src" (FSTree.dir true true
      (.cons "main.js" (FSTree.file true ⟨true, [104, 105], 2⟩) .nil)) .nil)
    (COut.mk ["src", "main.js"] ⟨true, [104, 105], 2⟩) (by decide)

/-! ## C9: filename skip-set -/

/-- Modelled from the claim text of C9: the OS metadata file names. -/
def osMetaFile (n : String) : Bool :=
  n = ".DS_Store" || n = "Thumbs.db" || n = "desktop.ini"

/-- Modelled from the claim text of C9: `*.log` files except names
containing "changelog". -/
def logSkipFile (n : String) : Bool :=
  strEndsWith n ".log" && !strIncludes n "changelog"

/-- Modelled from the claim text of C9: the dotenv-style secret file names
in the skip-set. -/
def dotenvSecretFile (n : String) : Bool :=
  n = ".env" || n = ".env.local" || n = ".env.production" || n = ".env.development"

theorem shouldSkipFile_of_osMeta {n : String} (h : osMetaFile n = true) :
    shouldSkipFile n = true := by
  unfold osMetaFile at h
  unfold shouldSkipFile
  rcases Bool.or_eq_true _ _ ▸ h with h' | h'
  · rcases Bool.or_eq_true _ _ ▸ h' with h'' | h'' <;>
      · rw [if_pos (by rw [of_decide_eq_true h'']; decide)]
  · rw [if_pos (by rw [of_decide_eq_true h']; decide)]

theorem shouldSkipFile_of_logSkip {n : String} (h : logSkipFile n = true) :
    shouldSkipFile n = true := by
  unfold logSkipFile at h
  unfold shouldSkipFile
  by_cases hc : skipFiles.contains n = true
  · rw [if_pos hc]
  · rw [if_neg hc, if_pos h]

theorem shouldSkipFile_of_dotenv {n : String} (h : dotenvSecretFile n = true) :
    shouldSkipFile n = true := by
  unfold dotenvSecretFile at h
  unfold shouldSkipFile
  rcases Bool.or_eq_true _ _ ▸ h with h' | h'
  · rcases Bool.or_eq_true _ _ ▸ h' with h'' | h''
    · rcases Bool.or_eq_true _ _ ▸ h'' with h3 | h3 <;>
        · rw [if_pos (by rw [of_decide_eq_true h3]; decide)]
    · rw [if_pos (by rw [of_decide_eq_true h'']; decide)]
  · rw [if_pos (by rw [of_decide_eq_true h']; decide)]

/-- C9: every file entry matching the fixed filename skip-set — the OS
metadata files, `*.log` files except names containing "changelog", and the
dotenv-style secret files — is excluded from the Classifier's output. -/
theorem c9_filename_skip_set (entries : FSEntries) (o : COut) (n : String)
    (ho : o ∈ getRecursiveCalls entries [])
    (hn : o.path.getLast? = some n) :
    osMetaFile n = false ∧ logSkipFile n = false ∧ dotenvSecretFile n = false := by
  obtain ⟨-, -, -, hlast⟩ :=
    getRecursiveCalls_sound entries [] (by intro s hs; simp at hs) o ho
  obtain ⟨hskip, -⟩ := hlast n hn
  refine ⟨?_, ?_, ?_⟩
  · rw [Bool.eq_false_iff]; intro h
    rw [shouldSkipFile_of_osMeta h] at hskip; exact absurd hskip (by decide)
  · rw [Bool.eq_false_iff]; intro h
    rw [shouldSkipFile_of_logSkip h] at hskip; exact absurd hskip (by decide)
  · rw [Bool.eq_false_iff]; intro h
    rw [shouldSkipFile_of_dotenv h] at hskip; exact absurd hskip (by decide)

/-- C9 witness: a tree containing `error.log` and `.env` alongside
`main.js`; the only surviving output entry is `main.js`, whose name matches
none of the skip-set descriptions. -/
theorem c9_filename_skip_set_witness :
    osMetaFile "main.js" = false ∧ logSkipFile "main.js" = false ∧
      dotenvSecretFile "main.js" = false :=
  c9_filename_skip_set
    (.cons "error.log" (FSTree.file true ⟨true, [65], 1⟩)
      (.cons ".env" (FSTree.file true ⟨true, [66], 1⟩)
        (.cons "main.js" (FSTree.file true ⟨true, [67], 1⟩) .nil)))
    (COut.mk ["main.js"] ⟨true, [67], 1⟩) "main.js" (by decide) (by decide)

/-! ## C2: does the Orchestrator publish only gate-passing files? -/

/-- C2, counterexample to the claim as stated: the batched Upload
Orchestrator's collector includes the file `.env`, which fails the
Classifier's filename skip-list (and the classifier itself excludes it). -/
theorem c2_orchestrator_gate_counterexample :
    collectFiles (.cons ".env" (FSTree.file true ⟨true, [65], 1⟩) .nil) []
      = some [[".env"]] ∧
    shouldSkipFile ".env" = true ∧
    getRecursiveCalls (.cons ".env" (FSTree.file true ⟨true, [65], 1⟩) .nil) []
      = [] := by
  refine ⟨rfl, by decide, rfl⟩

/-- C2 (amended): the batched Upload Orchestrator applies no eligibility
gate at all — whenever its walk succeeds it publishes EVERY regular file
under the working directory, in traversal order, including files that fail
the Classifier's checks. -/
theorem c2_orchestrator_publishes_all (entries : FSEntries) (rel : List String)
    (ps : List (List String)) (h : collectFiles entries rel = some ps) :
    ps = allFilePaths entries rel := by
  induction entries, rel using collectFiles.induct generalizing ps with
  | case1 rel =>
    simp only [collectFiles] at h
    obtain rfl : ps = [] := by simpa using h.symm
    simp [allFilePaths]
  | case2 name d rest rel =>
    simp only [collectFiles] at h
    simp at h
  | case3 name statOk d rest rel hstat hrest ih =>
    simp only [collectFiles, if_neg hstat, hrest] at h
    simp at h
  | case4 name statOk d rest rel hstat r hrest ih =>
    simp only [collectFiles, if_neg hstat, hrest] at h
    obtain rfl : ps = (rel ++ [name]) :: r := by simpa using h.symm
    simp only [allFilePaths]
    rw [ih r hrest]
  | case5 name listOk sub rest rel =>
    simp only [collectFiles] at h
    simp at h
  | case6 name statOk sub rest rel hstat =>
    simp only [collectFiles, if_neg hstat] at h
    simp at h
  | case7 name statOk listOk sub rest rel hstat hlist hsub ih =>
    simp only [collectFiles, if_neg hstat, if_neg hlist, hsub] at h
    simp at h
  | case8 name statOk listOk sub rest rel hstat hlist r hsub hrest ih1 ih2 =>
    simp only [collectFiles, if_neg hstat, if_neg hlist, hsub, hrest] at h
    simp at h
  | case9 name statOk listOk sub rest rel hstat hlist r hsub r2 hrest ih1 ih2 =>
    simp only [collectFiles, if_neg hstat, if_neg hlist, hsub, hrest] at h
    obtain rfl : ps = r ++ r2 := by simpa using h.symm
    simp only [allFilePaths]
    rw [ih1 r hsub, ih2 r2 hrest]

/-- C2 witness: on a concrete tree the collector's successful walk yields
exactly the unfiltered file enumeration. -/
theorem c2_orchestrator_publishes_all_witness :
    some (allFilePaths
        (.cons ".env" (FSTree.file true ⟨true, [65], 1⟩)
          (.cons "a.bin" (FSTree.file true ⟨true, [0, 1], 2⟩) .nil)) []) =
      collectFiles
        (.cons ".env" (FSTree.file true ⟨true, [65], 1⟩)
          (.cons "a.bin" (FSTree.file true ⟨true, [0, 1], 2⟩) .nil)) [] := by
  rw [← c2_orchestrator_publishes_all
    (.cons ".env" (FSTree.file true ⟨true, [65], 1⟩)
      (.cons "a.bin" (FSTree.file true ⟨true, [0, 1], 2⟩) .nil)) []
    [[".env"], ["a.bin"]] rfl]
  rfl

/-! ## C4: upload batching schedule -/

/-- An event in the orchestrator's schedule: a batch issued as one
`Promise.all` (all of its upserts in flight concurrently, awaited as a
whole before anything later starts), or the inter-batch pause. -/
inductive UploadEvent (α : Type) where
  | batch (files : List α)
  | pause
  deriving Repr, DecidableEq

/-- Shallow embedding of the batch loop of `uploadToGitHubAPI`
(TreeReciever/index.js, lines 929-949) on the happy path: starting at
index `i`, slice `BATCH_SIZE = 10` files, await the batch, and pause
afterwards iff `i + 10 < files.length` (more batches remain). -/
def uploadLoop {α : Type} (files : List α) (i : Nat) : List (UploadEvent α) :=
  if i < files.length then
    UploadEvent.batch ((files.drop i).take 10) ::
      (if i + 10 < files.length then
        UploadEvent.pause :: uploadLoop files (i + 10)
      else uploadLoop files (i + 10))
  else []
termination_by files.length - i
decreasing_by all_goals omega

/-- The slice partition `[files.slice(0,10), files.slice(10,20), …]`. -/
def chunks10 {α : Type} : List α → List (List α)
  | [] => []
  | a :: l => ((a :: l).take 10 : List α) :: chunks10 ((a :: l).drop 10)
termination_by l => l.length
decreasing_by simp; omega

theorem chunks10_ne {α : Type} {l : List α} (h : l ≠ []) :
    chunks10 l = l.take 10 :: chunks10 (l.drop 10) := by
  cases l with
  | nil => exact absurd rfl h
  | cons a t => rw [chunks10]

theorem chunks10_length {α : Type} (l : List α) :
    (chunks10 l).length = (l.length + 9) / 10 := by
  induction l using chunks10.induct with
  | case1 => rw [chunks10]; simp
  | case2 a t ih =>
    rw [chunks10]
    simp only [List.length_cons, List.length_drop] at ih ⊢
    rw [ih]
    omega

theorem chunks10_le_ten {α : Type} (l : List α) :
    ∀ b ∈ chunks10 l, b.length ≤ 10 := by
  induction l using chunks10.induct with
  | case1 => intro b hb; rw [chunks10] at hb; simp at hb
  | case2 a t ih =>
    intro b hb
    rw [chunks10] at hb
    rcases List.mem_cons.mp hb with rfl | hb'
    · exact List.length_take_le 10 (a :: t)
    · exact ih b hb'

theorem chunks10_flat {α : Type} (l : List α) :
    (chunks10 l).flatten = l := by
  induction l using chunks10.induct with
  | case1 => rw [chunks10]; rfl
  | case2 a t ih =>
    rw [chunks10]
    simp only [List.flatten_cons]
    rw [ih, List.take_append_drop]

theorem uploadLoop_eq_intersperse {α : Type} (files : List α) :
    ∀ i, uploadLoop files i =
      List.intersperse UploadEvent.pause
        ((chunks10 (files.drop i)).map UploadEvent.batch) := by
  refine uploadLoop.induct files _ ?_ ?_
  · intro i hi ih1 ih2
    by_cases hmore : i + 10 < files.length
    · have ih := ih1 hmore
      rw [uploadLoop, if_pos hi, if_pos hmore]
      have hne : files.drop i ≠ [] := by
        intro h
        have hlen := congrArg List.length h
        rw [List.length_drop] at hlen
        simp at hlen
        omega
      have hne2 : files.drop (i + 10) ≠ [] := by
        intro h
        have hlen := congrArg List.length h
        rw [List.length_drop] at hlen
        simp at hlen
        omega
      rw [chunks10_ne hne, List.drop_drop]
      rw [chunks10_ne hne2, List.map_cons, List.map_cons,
        List.intersperse_cons_cons]
      rw [ih, chunks10_ne hne2, List.map_cons]
    · have ih := ih2 hmore
      rw [uploadLoop, if_pos hi, if_neg hmore]
      have hnil : files.drop (i + 10) = [] := by
        apply List.drop_eq_nil_of_le
        omega
      have hne : files.drop i ≠ [] := by
        intro h
        have hlen := congrArg List.length h
        rw [List.length_drop] at hlen
        simp at hlen
        omega
      rw [chunks10_ne hne, List.drop_drop]
      rw [hnil]
      rw [ih, hnil]
      rw [chunks10]
      rfl
  · intro i hi
    rw [uploadLoop, if_neg hi]
    have hnil : files.drop i = [] := by
      apply List.drop_eq_nil_of_le
      omega
    rw [hnil, chunks10]
    rfl

/-- C4: for every working tree of N eligible files, the happy-path batch
loop issues exactly `⌈N/10⌉` batches sequentially (the schedule is the
batch list interleaved with single pauses — a pause between consecutive
batches and nowhere else, and never between two uploads of one batch),
each batch holds at most 10 concurrent upserts, and the batches partition
the file list in order. -/
theorem c4_upload_batching {α : Type} (files : List α) :
    uploadLoop files 0 =
      List.intersperse UploadEvent.pause
        ((chunks10 files).map UploadEvent.batch) ∧
    (chunks10 files).length = (files.length + 9) / 10 ∧
    (∀ b ∈ chunks10 files, b.length ≤ 10) ∧
    (chunks10 files).flatten = files := by
  refine ⟨?_, chunks10_length files, chunks10_le_ten files, chunks10_flat files⟩
  have h := uploadLoop_eq_intersperse files 0
  rw [List.drop_zero] at h
  exact h

/-- C4 witness: twelve files are issued as ⌈12/10⌉ = 2 batches of sizes
10 and 2 with a single pause between them. -/
theorem c4_upload_batching_witness :
    uploadLoop [0, 1, 2, 3, 4, 5, 6, 7, 8, 9, 10, 11] 0 =
      List.intersperse UploadEvent.pause
        ((chunks10 [0, 1, 2, 3, 4, 5, 6, 7, 8, 9, 10, 11]).map
          UploadEvent.batch) ∧
    (chunks10 [0, 1, 2, 3, 4, 5, 6, 7, 8, 9, 10, 11]).length = 2 :=
  ⟨(c4_upload_batching [0, 1, 2, 3, 4, 5, 6, 7, 8, 9, 10, 11]).1,
   (c4_upload_batching [0, 1, 2, 3, 4, 5, 6, 7, 8, 9, 10, 11]).2.1⟩

/-! ## Per-file upsert and batch retry (`uploadFileBatch` / batch loop) -/

inductive HttpResult where
  | ok
  | err (status : Nat) (msg : String)
  deriving Repr, DecidableEq

/-- The remote store's behaviour for one path: the response to the initial
create PUT (no sha attached), the GET of the existing record (`some sha`
when it responds ok), and the response to the update PUT for a given sha. -/
structure FileRemote where
  putCreate : HttpResult
  getExisting : Option String
  putUpdate : String → HttpResult

inductive UpsertAction where
  | putCreate
  | getExisting
  | putUpdate (sha : String)
  deriving Repr, DecidableEq

/-- The tail of the per-file upsert once the 422-sha path has not returned
(TreeReciever/index.js, lines 906-914): classify 403 + "rate limit" and
throw, else throw the generic failure. -/
def uploadFileTail (p : String) (status : Nat) (msg : String)
    (acts : List UpsertAction) : Except String Unit × List UpsertAction :=
  if status = 403 && strIncludes msg "rate limit" then
    (.error ("Rate limit hit for " ++ p), acts)
  else
    (.error ("Failed to upload " ++ p ++ ": " ++ msg), acts)

/-- Shallow embedding of one file upsert inside `uploadFileBatch`
(TreeReciever/index.js, lines 830-922): PUT with no sha; if that fails
with 422 and "sha" in the message, GET the existing record and, when the
GET succeeds, retry the PUT with the fetched sha attached (a failed retry
throws "Failed to update ..."); otherwise fall through to the rate-limit /
generic failure classification of the original response.  The second
component is the trace of requests issued for this path. -/
def uploadFile (p : String) (r : FileRemote) :
    Except String Unit × List UpsertAction :=
  match r.putCreate with
  | .ok => (.ok (), [.putCreate])
  | .err status msg =>
    if status = 422 && strIncludes msg "sha" then
      match r.getExisting with
      | some sha =>
        (match r.putUpdate sha with
         | .ok => (.ok (), [.putCreate, .getExisting, .putUpdate sha])
         | .err _ m2 =>
           (.error ("Failed to update " ++ p ++ ": " ++ m2),
             [.putCreate, .getExisting, .putUpdate sha]))
      | none => uploadFileTail p status msg [.putCreate, .getExisting]
    else uploadFileTail p status msg [.putCreate]

/-- Embedding of `uploadFileBatch`: all upserts of a batch run under one `Promise.all`;
the surfaced rejection is modelled deterministically as the first failing
file in batch order. -/
def uploadFileBatch (remote : String → FileRemote) : List String → Except String Unit
  | [] => .ok ()
  | p :: rest =>
    match (uploadFile p (remote p)).1 with
    | .ok _ => uploadFileBatch remote rest
    | .error e => .error e

inductive BatchOutcome where
  | done (attempts : Nat)
  | failed (attempts : Nat) (msg : String)
  deriving Repr, DecidableEq

/-- Shallow embedding of the batch try/catch of `uploadToGitHubAPI`
(TreeReciever/index.js, lines 940-964): on a batch failure whose message
contains "rate limit" (case-sensitive `String.includes`), pause and retry
the full batch exactly once, a second failure propagating; any other
failure propagates immediately.  `remote a` is the store's behaviour on
attempt `a` for this batch. -/
def runBatch (remote : Nat → String → FileRemote) (batch : List String) :
    BatchOutcome :=
  match uploadFileBatch (remote 0) batch with
  | .ok _ => .done 1
  | .error msg =>
    if strIncludes msg "rate limit" then
      match uploadFileBatch (remote 1) batch with
      | .ok _ => .done 2
      | .error m2 => .failed 2 m2
    else .failed 1 msg

/-! ## C5: 422 "sha" conflict is retried as an update -/

/-- C5: when the initial create is rejected with 422 and "sha" in the
message, the orchestrator fetches the existing record, retries the write
with the fetched revision token attached, and the upsert succeeds without
surfacing an error when the retried write is accepted — issuing exactly
create, fetch, update. -/
theorem c5_conflict_sha_retry (p : String) (r : FileRemote) (msg sha : String)
    (hcreate : r.putCreate = .err 422 msg)
    (hsha : strIncludes msg "sha" = true)
    (hget : r.getExisting = some sha)
    (hupd : r.putUpdate sha = .ok) :
    uploadFile p r = (.ok (), [.putCreate, .getExisting, .putUpdate sha]) := by
  simp only [uploadFile, hcreate, hsha, hget, hupd]
  simp

/-- C5 witness: a concrete path whose create hits the 422 "sha" conflict
and whose retried update is accepted. -/
theorem c5_conflict_sha_retry_witness :
    uploadFile "README.md"
      ⟨.err 422 "Invalid request. sha was not supplied.", some "abc123",
        fun _ => .ok⟩ =
      (.ok (), [.putCreate, .getExisting, .putUpdate "abc123"]) :=
  c5_conflict_sha_retry "README.md"
    ⟨.err 422 "Invalid request. sha was not supplied.", some "abc123",
      fun _ => .ok⟩
    "Invalid request. sha was not supplied." "abc123"
    rfl (by decide) rfl rfl

/-! ## C6: the rate-limited batch is in fact NOT retried -/

/-- A store that answers every create PUT with HTTP 403 and a message
containing "rate limit" — the designed rate-limit signal — on every
attempt. -/
def rateLimitRemote : Nat → String → FileRemote :=
  fun _ _ => ⟨.err 403 "API rate limit exceeded for user", none, fun _ => .ok⟩

/-- C6, evaluation at the failing input: a 403 response whose message
contains "rate limit" makes the per-file upsert throw
"Rate limit hit for README.md" (capital R), the outer case-sensitive
`includes("rate limit")` check is false on that message, and therefore the
batch FAILS AFTER ONE ATTEMPT with no pause and no retry — contradicting
the claimed pause-and-retry-once behaviour. -/
theorem c6_rate_limit_batch_not_retried :
    uploadFile "README.md" (rateLimitRemote 0 "README.md") =
      (.error "Rate limit hit for README.md", [.putCreate]) ∧
    strIncludes "API rate limit exceeded for user" "rate limit" = true ∧
    strIncludes "Rate limit hit for README.md" "rate limit" = false ∧
    runBatch rateLimitRemote ["README.md"] =
      .failed 1 "Rate limit hit for README.md" := by
  refine ⟨rfl, by decide, by decide, rfl⟩

/-! ## Repository Provisioner (`createRepoIfNotExists`) -/

inductive RepoResp where
  | ok (repo : String)
  | err (status : Nat) (msg : String)
  deriving Repr, DecidableEq

inductive CreateResp where
  | ok (repo : String)
  | err (status : Nat) (msg : String) (errors : Option (List String))
  deriving Repr, DecidableEq

/-- The remote store's behaviour for one provisioning run: the existence
check, the creation POST, and the post-conflict verification GET. -/
structure RepoRemote where
  check : RepoResp
  create : CreateResp
  verify : RepoResp
  deriving Repr, DecidableEq

inductive RepoAction where
  | checkRepo
  | createRepo
  | verifyRepo
  deriving Repr, DecidableEq

/-- An apostrophe (the source quotes the repository name with them). -/
def sq : String := String.mk [Char.ofNat 39]

/-- Shallow embedding of `createRepoIfNotExists` (TreeReciever/index.js,
lines 617-741): check existence (ok → return; non-404 non-rate-limited
failure → throw; 404 or rate-limited 403 → proceed); create (401 → auth
failure; 403 → rate limit or forbidden; 422 with a "name already exists"
error → verify existence and return the handle if accessible, else throw
not-accessible; other 422 → validation failure; else → creation failure).
The second component is the trace of requests issued. -/
def createRepoIfNotExists (r : RepoRemote) (repoName : String) :
    Except String String × List RepoAction :=
  match r.check with
  | .ok repo => (.ok repo, [.checkRepo])
  | .err status msg =>
    if status ≠ 404 && !(status = 403 && strIncludes msg "rate limit") then
      (.error ("Failed to check repository: " ++ msg), [.checkRepo])
    else
      match r.create with
      | .ok repo => (.ok repo, [.checkRepo, .createRepo])
      | .err cst cmsg errs =>
        if cst = 401 then
          (.error "GitHub authentication failed. Please check your token.",
            [.checkRepo, .createRepo])
        else if cst = 403 then
          if strIncludes cmsg "rate limit" then
            (.error ("GitHub API rate limit exceeded. Please wait before trying again. "
                ++ cmsg),
              [.checkRepo, .createRepo])
          else
            (.error ("GitHub API access forbidden. Check token permissions (needs "
                ++ sq ++ "repo" ++ sq ++ " scope)."),
              [.checkRepo, .createRepo])
        else if cst = 422 then
          match errs with
          | some es =>
            if es.any (fun e => strIncludes e "name already exists") then
              match r.verify with
              | .ok repo => (.ok repo, [.checkRepo, .createRepo, .verifyRepo])
              | .err _ _ =>
                (.error ("Repository " ++ sq ++ repoName ++ sq ++
                    " exists but is not accessible. You might not have permission to access it."),
                  [.checkRepo, .createRepo, .verifyRepo])
            else
              (.error ("Repository creation validation failed: " ++ cmsg),
                [.checkRepo, .createRepo])
          | none =>
            (.error ("Repository creation validation failed: " ++ cmsg),
              [.checkRepo, .createRepo])
        else
          (.error ("Repository creation failed: " ++ cmsg),
            [.checkRepo, .createRepo])

/-! ## C7: "name already exists" race -/

/-- C7: whenever creation fails with a 422 carrying a "name already
exists" validation error, the Provisioner re-checks existence; if the
re-check succeeds it returns the existing handle instead of failing,
otherwise it fails with the not-accessible error. -/
theorem c7_name_exists_race (r : RepoRemote) (repoName : String)
    (st : Nat) (m cmsg : String) (es : List String)
    (hchk : r.check = .err st m)
    (hcont : st = 404 ∨ (st = 403 ∧ strIncludes m "rate limit" = true))
    (hcr : r.create = .err 422 cmsg (some es))
    (hname : es.any (fun e => strIncludes e "name already exists") = true) :
    (∀ repo, r.verify = .ok repo →
      createRepoIfNotExists r repoName =
        (.ok repo, [.checkRepo, .createRepo, .verifyRepo])) ∧
    (∀ vs vm, r.verify = .err vs vm →
      createRepoIfNotExists r repoName =
        (.error ("Repository " ++ sq ++ repoName ++ sq ++
            " exists but is not accessible. You might not have permission to access it."),
          [.checkRepo, .createRepo, .verifyRepo])) := by
  rcases hcont with rfl | ⟨rfl, hrl⟩
  · constructor
    · intro repo hv
      simp [createRepoIfNotExists, hchk, hcr, hname, hv]
    · intro vs vm hv
      simp [createRepoIfNotExists, hchk, hcr, hname, hv]
  · constructor
    · intro repo hv
      simp [createRepoIfNotExists, hchk, hcr, hname, hv, hrl]
    · intro vs vm hv
      simp [createRepoIfNotExists, hchk, hcr, hname, hv, hrl]

/-- C7 witness: a concrete race — 404 on the check, 422 "name already
exists" on create, successful re-verification — returns the existing
handle. -/
theorem c7_name_exists_race_witness :
    createRepoIfNotExists
      ⟨.err 404 "Not Found",
       .err 422 "Repository creation failed."
         (some ["name already exists on this account"]),
       .ok "https-handle"⟩ "myrepo" =
      (.ok "https-handle", [.checkRepo, .createRepo, .verifyRepo]) :=
  (c7_name_exists_race
    ⟨.err 404 "Not Found",
     .err 422 "Repository creation failed."
       (some ["name already exists on this account"]),
     .ok "https-handle"⟩ "myrepo"
    404 "Not Found" "Repository creation failed."
    ["name already exists on this account"]
    rfl (Or.inl rfl) rfl (by decide)).1 "https-handle" rfl

/-! ## C8: ensure is idempotent on an existing repository -/

/-- C8: when the repository already exists and the lookup succeeds, two
runs of the Provisioner both return that same handle immediately, and the
second run (like the first) issues only the existence check — no creation
request. -/
theorem c8_ensure_idempotent (r1 r2 : RepoRemote) (repoName repo : String)
    (h1 : r1.check = .ok repo) (h2 : r2.check = .ok repo) :
    createRepoIfNotExists r1 repoName = (.ok repo, [.checkRepo]) ∧
    createRepoIfNotExists r2 repoName = (.ok repo, [.checkRepo]) ∧
    (createRepoIfNotExists r1 repoName).1 = (createRepoIfNotExists r2 repoName).1 ∧
    RepoAction.createRepo ∉ (createRepoIfNotExists r2 repoName).2 := by
  have e1 : createRepoIfNotExists r1 repoName = (.ok repo, [.checkRepo]) := by
    simp [createRepoIfNotExists, h1]
  have e2 : createRepoIfNotExists r2 repoName = (.ok repo, [.checkRepo]) := by
    simp [createRepoIfNotExists, h2]
  refine ⟨e1, e2, ?_, ?_⟩
  · rw [e1, e2]
  · rw [e2]
    simp

/-- C8 witness: a concrete already-existing repository. -/
theorem c8_ensure_idempotent_witness :
    createRepoIfNotExists
      ⟨.ok "handle", .err 500 "unused" none, .err 500 "unused"⟩ "myrepo" =
      (.ok "handle", [.checkRepo]) :=
  (c8_ensure_idempotent
    ⟨.ok "handle", .err 500 "unused" none, .err 500 "unused"⟩
    ⟨.ok "handle", .err 500 "unused" none, .err 500 "unused"⟩
    "myrepo" "handle" rfl rfl).1

end CodePup
